import Mathlib

/-!
Verification development for the Aligner-360 backend (NestJS + Prisma).

The definitions below are a shallow embedding of the service layer that the
claims concern: the course service (slug uniquification, create / update /
publish / unpublish, enrollment management), the live-session service
(start / end / cancel transitions) and the blog service (fetch by id and by
slug).  The Prisma store is modelled as explicit lists of rows; every
operation is a pure function from the store (plus request parameters and the
server clock) to either an error or the updated store together with the row
the service returns.  In the source, every throw happens before any write of
the operation in question, so an error result carries no store: the store is
unchanged on failure.  Timestamps are abstract Nat values supplied by the
caller (the server clock `new Date()` becomes an explicit `now` argument).
-/

namespace Aligner360

/-- CourseStatus enum from the course DTO. -/
inductive CourseStatus
  | DRAFT
  | PUBLISHED
  | ARCHIVED
  | UNDER_REVIEW
deriving DecidableEq, Repr

/-- Enrollment status values used by the CourseEnrollment rows. -/
inductive EnrollmentStatus
  | ACTIVE
  | COMPLETED
  | CANCELLED
  | REFUNDED
deriving DecidableEq, Repr

/-- SessionStatus enum from the live-session DTO. -/
inductive SessionStatus
  | SCHEDULED
  | LIVE
  | COMPLETED
  | CANCELLED
  | POSTPONED
deriving DecidableEq, Repr

/-- BlogStatus enum from the blog DTO. -/
inductive BlogStatus
  | DRAFT
  | PUBLISHED
  | ARCHIVED
deriving DecidableEq, Repr

/-- Roles from the auth guard: admin and user. -/
inductive UserRole
  | ADMIN
  | USER
deriving DecidableEq, Repr

/-- Error taxonomy of the service layer.  The first four constructors mirror
the NestJS exception classes thrown by the services; typeError models a
JavaScript runtime TypeError (for example a property read on null), which the
framework surfaces as a generic 500 response. -/
inductive ApiError
  | notFound (msg : String)
  | badRequest (msg : String)
  | forbidden (msg : String)
  | conflict (msg : String)
  | typeError (msg : String)
deriving DecidableEq, Repr

/-- A course row.  Fields not consulted by any claimed operation (tags, meta
fields, currency, and so on) are omitted; enrollmentCount is an Int because
the Prisma decrement in cancelEnrollment can drive it below zero. -/
structure Course where
  id : String
  slug : String
  title : String
  status : CourseStatus
  publishedAt : Option Nat
  maxEnrollments : Option Nat
  enrollmentCount : Int
  viewCount : Nat
  price : Int
  isFreeCourse : Bool
  createdById : String
deriving DecidableEq, Repr

/-- A CourseEnrollment row; (userId, courseId) carries a compound unique
constraint in the schema. -/
structure CourseEnrollment where
  id : String
  userId : String
  courseId : String
  status : EnrollmentStatus
  progress : Int
  amountPaid : Int
  completedAt : Option Nat
  enrolledAt : Nat
deriving DecidableEq, Repr

/-- A blog row, restricted to the fields the fetch operations consult. -/
structure Blog where
  id : String
  slug : String
  title : String
  status : BlogStatus
  authorId : String
  isForDentist : Bool
  viewCount : Nat
deriving DecidableEq, Repr

/-- A live-session row, restricted to the fields the transitions consult. -/
structure LiveSession where
  id : String
  status : SessionStatus
deriving DecidableEq, Repr

/-- Combined store for the course service: course rows plus enrollment rows. -/
structure Store where
  courses : List Course
  enrollments : List CourseEnrollment
deriving DecidableEq, Repr

/-! ### Slug generation (course service) -/

/-- Character class of the regex a-z0-9 used by generateSlug. -/
def isSlugChar (c : Char) : Bool :=
  (('a' ≤ c) && (c ≤ 'z')) || (('0' ≤ c) && (c ≤ '9'))

/-- Collapse every maximal run of characters outside a-z0-9 into a single
hyphen, mirroring replace of the pattern (caret a-z0-9)+ with a hyphen. -/
def collapseRuns : List Char → List Char
  | [] => []
  | c :: rest =>
    let tail := collapseRuns rest
    if isSlugChar c then c :: tail
    else
      match tail with
      | '-' :: _ => tail
      | _ => '-' :: tail

/-- generateSlug from the course service: lowercase the title, replace runs
of non-alphanumeric characters with single hyphens, trim hyphens at both
ends. -/
def generateSlug (title : String) : String :=
  let lowered := title.toList.map Char.toLower
  let collapsed := collapseRuns lowered
  let trimmed := ((collapsed.dropWhile (· = '-')).reverse.dropWhile (· = '-')).reverse
  String.mk trimmed

/-! ### ensureUniqueSlug (course service) -/

/-- The candidate tried on loop iteration k of ensureUniqueSlug: iteration 0
probes the original slug, iteration k probes slug-k (the source keeps a
counter that starts at 1 and appends it to the original slug on each
conflict). -/
def slugCand (slug : String) (k : Nat) : String :=
  if k = 0 then slug else slug ++ "-" ++ Nat.repr k

/-- The where-condition of the findUnique probe of ensureUniqueSlug: the row
carries the candidate slug, and when an id is excluded the row is not that
entity. -/
def slugMatch (excl : Option String) (cand : String) (c : Course) : Bool :=
  decide (c.slug = cand) &&
    (match excl with
     | some e => decide (c.id ≠ e)
     | none => true)

/-- The findUnique probe of ensureUniqueSlug: true when some course row
carries the candidate slug, rows with the excluded id being ignored. -/
def slugTaken (courses : List Course) (excl : Option String) (cand : String) : Bool :=
  (courses.find? (slugMatch excl cand)).isSome

/-- Fuel-indexed unfolding of the while-true loop of ensureUniqueSlug; k is
the index of the next candidate to probe.  The loop of the source is
unbounded, but candidates are pairwise distinct strings, so at most
(number of rows) probes can fail; the fuel used below therefore never runs
out, which theorem ensureUniqueSlugGo_isSome proves. -/
def ensureUniqueSlugGo (courses : List Course) (slug : String) (excl : Option String) :
    Nat → Nat → Option String
  | 0, _ => none
  | fuel + 1, k =>
    if slugTaken courses excl (slugCand slug k) then
      ensureUniqueSlugGo courses slug excl fuel (k + 1)
    else
      some (slugCand slug k)

/-- ensureUniqueSlug from the course service: probe slug, slug-1, slug-2 and
so on until a candidate is not taken. -/
def ensureUniqueSlug (courses : List Course) (slug : String) (excl : Option String) :
    Option String :=
  ensureUniqueSlugGo courses slug excl (courses.length + 1) 0

/-! ### Course service operations -/

/-- The fields of CreateCourseDto consulted by createCourse and by the
claims.  Optional fields are absent when the request omitted them. -/
structure CreateCourseData where
  title : String
  slug : Option String
  status : Option CourseStatus
  price : Option Int
  isFreeCourse : Option Bool
  maxEnrollments : Option Nat
deriving DecidableEq, Repr

/-- The slug candidate createCourse submits to ensureUniqueSlug: the DTO slug
when present and non-empty (JavaScript or-falsiness), generateSlug of the
title otherwise. -/
def createSlugBase (dto : CreateCourseData) : String :=
  match dto.slug with
  | some s => if s.isEmpty then generateSlug dto.title else s
  | none => generateSlug dto.title

/-- createCourse.  The slug candidate goes through ensureUniqueSlug, then the
row is inserted.  Modelled from the spec: the Prisma schema file is not part
of the sources, so the row defaults applied by create - status DRAFT,
publishedAt null, counters zero, price 0, isFreeCourse false - follow the
lifecycle the spec describes (entities start as DRAFT and publishedAt is set
only by publishing). -/
def createCourse (courses : List Course) (dto : CreateCourseData)
    (createdById newId : String) : Option (List Course × Course) :=
  match ensureUniqueSlug courses (createSlugBase dto) none with
  | none => none
  | some slug =>
    let course : Course :=
      { id := newId
        slug := slug
        title := dto.title
        status := dto.status.getD CourseStatus.DRAFT
        publishedAt := none
        maxEnrollments := dto.maxEnrollments
        enrollmentCount := 0
        viewCount := 0
        price := dto.price.getD 0
        isFreeCourse := dto.isFreeCourse.getD false
        createdById := createdById }
    some (courses ++ [course], course)

/-- The update payload reaching the course-service updateCourse at runtime:
the controller forwards the whole UpdateCourseDto (merged with any uploaded
file URLs), so a status field passes straight through to the Prisma update.
Fields not listed here are forwarded the same way and never touch status or
publishedAt. -/
structure UpdateCourseData where
  title : Option String
  status : Option CourseStatus
  thumbnailImage : Option String
  videoFile : Option String
deriving DecidableEq, Repr

/-- updateCourse: fetch by id (404 when absent) and overwrite exactly the
fields present in the payload.  publishedAt is not part of the payload and is
never touched. -/
def updateCourse (courses : List Course) (id : String) (dto : UpdateCourseData) :
    Except ApiError (List Course × Course) :=
  match courses.find? (fun c => decide (c.id = id)) with
  | none => .error (.notFound "Course not found")
  | some c =>
    let c' : Course :=
      { c with
        title := dto.title.getD c.title
        status := dto.status.getD c.status }
    .ok (courses.map (fun x => if x.id = id then c' else x), c')

/-- publishCourse: 404 when the course is absent, BadRequest when it is
already PUBLISHED; otherwise set status PUBLISHED and publishedAt to the DTO
timestamp when one was supplied, the current time otherwise. -/
def publishCourse (courses : List Course) (id : String) (dtoPublishedAt : Option Nat)
    (now : Nat) : Except ApiError (List Course × Course) :=
  match courses.find? (fun c => decide (c.id = id)) with
  | none => .error (.notFound "Course not found")
  | some course =>
    if course.status = CourseStatus.PUBLISHED then
      .error (.badRequest "Course is already published")
    else
      let c' : Course :=
        { course with
          status := CourseStatus.PUBLISHED
          publishedAt := some (dtoPublishedAt.getD now) }
      .ok (courses.map (fun x => if x.id = id then c' else x), c')

/-- unpublishCourse: 404 when absent, BadRequest when the course is not
PUBLISHED; otherwise set status DRAFT and clear publishedAt. -/
def unpublishCourse (courses : List Course) (id : String) :
    Except ApiError (List Course × Course) :=
  match courses.find? (fun c => decide (c.id = id)) with
  | none => .error (.notFound "Course not found")
  | some course =>
    if course.status ≠ CourseStatus.PUBLISHED then
      .error (.badRequest "Course is not published")
    else
      let c' : Course :=
        { course with
          status := CourseStatus.DRAFT
          publishedAt := none }
      .ok (courses.map (fun x => if x.id = id then c' else x), c')

/-! ### Enrollment operations -/

/-- Count of ACTIVE enrollment rows of a course, as computed by the capacity
check of enrollInCourse. -/
def activeEnrollmentCount (st : Store) (courseId : String) : Nat :=
  (st.enrollments.filter (fun e =>
    decide (e.courseId = courseId ∧ e.status = EnrollmentStatus.ACTIVE))).length

/-- The writes enrollInCourse performs once every check has passed: insert
the enrollment row and increment enrollmentCount of the course.  Modelled
from the spec: the Prisma schema file is not part of the sources, so the row
defaults of the insert - status ACTIVE, progress 0, completedAt null - follow
the enrollment lifecycle the spec describes. -/
def enrollCreate (st : Store) (course : Course) (courseId userId newId : String)
    (now : Nat) : Except ApiError (Store × CourseEnrollment) :=
  let enrollment : CourseEnrollment :=
    { id := newId
      userId := userId
      courseId := courseId
      status := EnrollmentStatus.ACTIVE
      progress := 0
      amountPaid := if course.isFreeCourse then 0 else course.price
      completedAt := none
      enrolledAt := now }
  let courses' := st.courses.map (fun c =>
    if c.id = courseId then { c with enrollmentCount := c.enrollmentCount + 1 } else c)
  .ok ({ courses := courses', enrollments := st.enrollments ++ [enrollment] }, enrollment)

/-- enrollInCourse.  Checks in source order: course exists, course is
PUBLISHED, no row for the (userId, courseId) pair exists (whatever its
status), and, when maxEnrollments is set and nonzero (JavaScript truthiness
treats both null and 0 as falsy), the ACTIVE count is below it.  All throws
happen before any write. -/
def enrollInCourse (st : Store) (courseId userId newId : String) (now : Nat) :
    Except ApiError (Store × CourseEnrollment) :=
  match st.courses.find? (fun c => decide (c.id = courseId)) with
  | none => .error (.notFound "Course not found")
  | some course =>
    if course.status ≠ CourseStatus.PUBLISHED then
      .error (.badRequest "Course is not available for enrollment")
    else if (st.enrollments.find? (fun e =>
        decide (e.userId = userId ∧ e.courseId = courseId))).isSome then
      .error (.conflict "You are already enrolled in this course")
    else if course.maxEnrollments.getD 0 ≠ 0 then
      if activeEnrollmentCount st courseId ≥ course.maxEnrollments.getD 0 then
        .error (.badRequest "Course enrollment limit reached")
      else
        enrollCreate st course courseId userId newId now
    else
      enrollCreate st course courseId userId newId now

/-- updateEnrollmentProgress: owner-only; when progress reaches 100 and
completedAt is still null the row is marked COMPLETED and completedAt is
stamped; otherwise only progress is written. -/
def updateEnrollmentProgress (st : Store) (enrollmentId userId : String)
    (progress : Int) (now : Nat) : Except ApiError (Store × CourseEnrollment) :=
  match st.enrollments.find? (fun e => decide (e.id = enrollmentId)) with
  | none => .error (.notFound "Enrollment not found")
  | some e =>
    if e.userId ≠ userId then
      .error (.forbidden "You can only update your own enrollment")
    else
      let e' : CourseEnrollment :=
        if progress ≥ 100 ∧ e.completedAt = none then
          { e with
            progress := progress
            status := EnrollmentStatus.COMPLETED
            completedAt := some now }
        else
          { e with progress := progress }
      .ok ({ st with
              enrollments := st.enrollments.map (fun x =>
                if x.id = enrollmentId then e' else x) }, e')

/-- cancelEnrollment: owner-only; unconditionally sets status CANCELLED (no
check of the current status) and decrements enrollmentCount of the course.
Relational integrity guarantees the referenced course row exists, so the
decrement is modelled as an in-place map. -/
def cancelEnrollment (st : Store) (enrollmentId userId : String) :
    Except ApiError (Store × CourseEnrollment) :=
  match st.enrollments.find? (fun e => decide (e.id = enrollmentId)) with
  | none => .error (.notFound "Enrollment not found")
  | some e =>
    if e.userId ≠ userId then
      .error (.forbidden "You can only cancel your own enrollment")
    else
      let e' : CourseEnrollment := { e with status := EnrollmentStatus.CANCELLED }
      let enrollments' := st.enrollments.map (fun x => if x.id = enrollmentId then e' else x)
      let courses' := st.courses.map (fun c =>
        if c.id = e.courseId then { c with enrollmentCount := c.enrollmentCount - 1 } else c)
      .ok ({ courses := courses', enrollments := enrollments' }, e')

/-! ### Live-session transitions -/

/-- startLiveSession: 404 when absent, BadRequest unless the session status
is exactly SCHEDULED; otherwise set it LIVE. -/
def startLiveSession (sessions : List LiveSession) (id : String) :
    Except ApiError (List LiveSession × LiveSession) :=
  match sessions.find? (fun s => decide (s.id = id)) with
  | none => .error (.notFound "Live session not found")
  | some s =>
    if s.status ≠ SessionStatus.SCHEDULED then
      .error (.badRequest "Session is not scheduled")
    else
      let s' : LiveSession := { s with status := SessionStatus.LIVE }
      .ok (sessions.map (fun x => if x.id = id then s' else x), s')

/-- endLiveSession: 404 when absent, BadRequest unless the session status is
exactly LIVE; otherwise set it COMPLETED. -/
def endLiveSession (sessions : List LiveSession) (id : String) :
    Except ApiError (List LiveSession × LiveSession) :=
  match sessions.find? (fun s => decide (s.id = id)) with
  | none => .error (.notFound "Live session not found")
  | some s =>
    if s.status ≠ SessionStatus.LIVE then
      .error (.badRequest "Session is not live")
    else
      let s' : LiveSession := { s with status := SessionStatus.COMPLETED }
      .ok (sessions.map (fun x => if x.id = id then s' else x), s')

/-- cancelLiveSession: 404 when absent, BadRequest only when the session is
COMPLETED; every other status - including CANCELLED - is set to CANCELLED. -/
def cancelLiveSession (sessions : List LiveSession) (id : String) :
    Except ApiError (List LiveSession × LiveSession) :=
  match sessions.find? (fun s => decide (s.id = id)) with
  | none => .error (.notFound "Live session not found")
  | some s =>
    if s.status = SessionStatus.COMPLETED then
      .error (.badRequest "Cannot cancel a completed session")
    else
      let s' : LiveSession := { s with status := SessionStatus.CANCELLED }
      .ok (sessions.map (fun x => if x.id = id then s' else x), s')

/-! ### Blog fetch operations -/

/-- getBlogById from the blog service: fetch by id, 404 only when the row is
absent.  No visibility check of any kind is performed - the role parameter
only decides whether the view counter is bumped (PUBLISHED and a non-admin
role; the role argument of the service is a mandatory enum, hence always
truthy).  The row is returned to every caller whatever its status. -/
def getBlogById (blogs : List Blog) (id : String) (role : UserRole) :
    Except ApiError (List Blog × Blog) :=
  match blogs.find? (fun b => decide (b.id = id)) with
  | none => .error (.notFound "Blog not found")
  | some blog =>
    if blog.status = BlogStatus.PUBLISHED ∧ role ≠ UserRole.ADMIN then
      .ok (blogs.map (fun b =>
        if b.id = id then { b with viewCount := b.viewCount + 1 } else b), blog)
    else
      .ok (blogs, blog)

/-- Tail of getBlogBySlug once the row is known to exist and the
dentist-visibility guard has passed: non-admins may only see PUBLISHED blogs
(404 otherwise), and a PUBLISHED fetch bumps the view counter. -/
def getBlogBySlugRest (blogs : List Blog) (userRole : Option UserRole) (blog : Blog) :
    Except ApiError (List Blog × Blog) :=
  if userRole ≠ some UserRole.ADMIN ∧ blog.status ≠ BlogStatus.PUBLISHED then
    .error (.notFound "Blog not found")
  else if blog.status = BlogStatus.PUBLISHED then
    .ok (blogs.map (fun b =>
      if b.id = blog.id then { b with viewCount := b.viewCount + 1 } else b), blog)
  else
    .ok (blogs, blog)

/-- getBlogBySlug from the blog service.  The source reads blog.isForDentist
for an unauthenticated caller BEFORE checking that the row exists, so an
absent slug combined with an absent role dereferences null and raises a
runtime TypeError (surfaced as a 500); with a role present the short-circuit
skips the read and the absent row is reported as a 404. -/
def getBlogBySlug (blogs : List Blog) (slug : String) (userRole : Option UserRole) :
    Except ApiError (List Blog × Blog) :=
  match userRole, blogs.find? (fun b => decide (b.slug = slug)) with
  | none, none => .error (.typeError "Cannot read properties of null reading isForDentist")
  | none, some blog =>
    if blog.isForDentist then
      .error (.forbidden "You can only view public blogs")
    else
      getBlogBySlugRest blogs none blog
  | some _, none => .error (.notFound "Blog not found")
  | some r, some blog => getBlogBySlugRest blogs (some r) blog

/-! ### Proof-support definitions -/

/-- Builder for concrete course rows used by the closed example theorems;
fields irrelevant to a given example are fixed to harmless defaults. -/
def mkCourse (id slug : String) (status : CourseStatus) (publishedAt : Option Nat)
    (maxEnrollments : Option Nat) (enrollmentCount : Int) : Course :=
  { id := id
    slug := slug
    title := "T"
    status := status
    publishedAt := publishedAt
    maxEnrollments := maxEnrollments
    enrollmentCount := enrollmentCount
    viewCount := 0
    price := 5
    isFreeCourse := false
    createdById := "u" }

/-- Builder for concrete enrollment rows used by the closed example
theorems. -/
def mkEnrollment (id userId courseId : String) (status : EnrollmentStatus)
    (progress : Int) (completedAt : Option Nat) : CourseEnrollment :=
  { id := id
    userId := userId
    courseId := courseId
    status := status
    progress := progress
    amountPaid := 0
    completedAt := completedAt
    enrolledAt := 0 }

/-- Builder for concrete blog rows used by the closed example theorems. -/
def mkBlog (id slug : String) (status : BlogStatus) (authorId : String)
    (isForDentist : Bool) : Blog :=
  { id := id
    slug := slug
    title := "T"
    status := status
    authorId := authorId
    isForDentist := isForDentist
    viewCount := 0 }

/-- Numeric value of a decimal digit character (48 is the code of the zero
character); used to show that the decimal rendering inside slugCand is
injective. -/
def digitVal (c : Char) : Nat := c.toNat - 48

/-- Value of a big-endian list of decimal digit characters. -/
def digitsVal : List Char → Nat
  | [] => 0
  | c :: cs => digitVal c * 10 ^ cs.length + digitsVal cs

/-- The publication invariant of the spec: publishedAt is non-null exactly
when the status is PUBLISHED. -/
def pubInv (c : Course) : Prop :=
  c.publishedAt ≠ none ↔ c.status = CourseStatus.PUBLISHED

/-- Course stores reachable through the public course operations when the
status field is never injected directly: creates whose DTO status is not
PUBLISHED, updates whose payload carries no status, and the guarded publish
and unpublish transitions. -/
inductive CourseReachable : List Course → Prop
  | init : CourseReachable []
  | create (cs cs' : List Course) (dto : CreateCourseData) (uid nid : String) (c : Course) :
      CourseReachable cs →
      dto.status ≠ some CourseStatus.PUBLISHED →
      createCourse cs dto uid nid = some (cs', c) →
      CourseReachable cs'
  | update (cs cs' : List Course) (id : String) (dto : UpdateCourseData) (c : Course) :
      CourseReachable cs →
      dto.status = none →
      updateCourse cs id dto = .ok (cs', c) →
      CourseReachable cs'
  | publish (cs cs' : List Course) (id : String) (dtoPublishedAt : Option Nat) (now : Nat)
      (c : Course) :
      CourseReachable cs →
      publishCourse cs id dtoPublishedAt now = .ok (cs', c) →
      CourseReachable cs'
  | unpublish (cs cs' : List Course) (id : String) (c : Course) :
      CourseReachable cs →
      unpublishCourse cs id = .ok (cs', c) →
      CourseReachable cs'

/-! ### General helper lemmas -/

theorem find?_comm_map {α : Type} (f : α → α) (p : α → Bool)
    (hp : ∀ x, p (f x) = p x) :
    ∀ l : List α, (l.map f).find? p = (l.find? p).map f := by
  intro l
  induction l with
  | nil => rfl
  | cons a t ih =>
    rw [List.map_cons, List.find?_cons, List.find?_cons, hp]
    cases p a
    · exact ih
    · rfl

theorem map_find?_by {α : Type} (l : List α) (idOf : α → String) (key : String)
    (f : α → α) (hf : ∀ x, idOf x = key → idOf (f x) = key) (c : α)
    (h : l.find? (fun x => decide (idOf x = key)) = some c) :
    (l.map (fun x => if idOf x = key then f x else x)).find?
      (fun x => decide (idOf x = key)) = some (f c) := by
  have hp : ∀ x, decide (idOf (if idOf x = key then f x else x) = key) =
      decide (idOf x = key) := by
    intro x
    by_cases hx : idOf x = key
    · rw [if_pos hx]
      simp [hf x hx, hx]
    · rw [if_neg hx]
  have hcomm := find?_comm_map (fun x => if idOf x = key then f x else x)
    (fun x => decide (idOf x = key)) hp l
  rw [hcomm, h]
  have hmap : Option.map (fun x => if idOf x = key then f x else x) (some c) =
      some (if idOf c = key then f c else c) := rfl
  rw [hmap]
  have hdec := @List.find?_some α (fun x => decide (idOf x = key)) c l h
  have hc : idOf c = key := of_decide_eq_true hdec
  rw [if_pos hc]

/-! ### Decimal rendering is injective -/

theorem digitChar_val : ∀ d, d < 10 → digitVal (Nat.digitChar d) = d := by decide

theorem toDigitsCore_succ (f n : Nat) (ds : List Char) :
    Nat.toDigitsCore 10 (f + 1) n ds =
      if n / 10 = 0 then Nat.digitChar (n % 10) :: ds
      else Nat.toDigitsCore 10 f (n / 10) (Nat.digitChar (n % 10) :: ds) := by
  conv_lhs => rw [Nat.toDigitsCore]

theorem toDigitsCore_val :
    ∀ (f n : Nat) (ds : List Char), n < 10 ^ f →
      digitsVal (Nat.toDigitsCore 10 f n ds) = n * 10 ^ ds.length + digitsVal ds := by
  intro f
  induction f with
  | zero =>
    intro n ds h
    have hn : n = 0 := by simpa using h
    subst hn
    simp [Nat.toDigitsCore]
  | succ f ih =>
    intro n ds h
    rw [toDigitsCore_succ]
    have hmod : digitVal (Nat.digitChar (n % 10)) = n % 10 :=
      digitChar_val _ (Nat.mod_lt _ (by norm_num))
    by_cases h0 : n / 10 = 0
    · rw [if_pos h0, digitsVal, hmod]
      have hn : n < 10 := by omega
      rw [Nat.mod_eq_of_lt hn]
    · rw [if_neg h0]
      have hlt : n / 10 < 10 ^ f := by
        have hmul : n < 10 ^ f * 10 := by
          rw [← pow_succ]
          exact h
        exact (Nat.div_lt_iff_lt_mul (by norm_num)).mpr hmul
      rw [ih (n / 10) (Nat.digitChar (n % 10) :: ds) hlt, digitsVal, List.length_cons, hmod]
      have hm : 10 * (n / 10) + n % 10 = n := Nat.div_add_mod n 10
      calc n / 10 * 10 ^ (ds.length + 1) + (n % 10 * 10 ^ ds.length + digitsVal ds)
          = (10 * (n / 10) + n % 10) * 10 ^ ds.length + digitsVal ds := by ring
        _ = n * 10 ^ ds.length + digitsVal ds := by rw [hm]

theorem toDigits_val (n : Nat) : digitsVal (Nat.toDigits 10 n) = n := by
  have h : n < 10 ^ (n + 1) :=
    lt_of_lt_of_le (Nat.lt_pow_self (by norm_num) n)
      (Nat.pow_le_pow_right (by norm_num) (Nat.le_succ n))
  have hv := toDigitsCore_val (n + 1) n [] h
  simpa [Nat.toDigits, digitsVal] using hv

theorem repr_injective : Function.Injective Nat.repr := by
  intro m n h
  have hdata : Nat.toDigits 10 m = Nat.toDigits 10 n := congrArg String.data h
  calc m = digitsVal (Nat.toDigits 10 m) := (toDigits_val m).symm
    _ = digitsVal (Nat.toDigits 10 n) := by rw [hdata]
    _ = n := toDigits_val n

/-! ### Slug candidate lemmas -/

theorem slugCand_injective (slug : String) : Function.Injective (slugCand slug) := by
  intro j k h
  unfold slugCand at h
  by_cases hj : j = 0 <;> by_cases hk : k = 0
  · omega
  · exfalso
    rw [if_pos hj, if_neg hk] at h
    have hlen := congrArg String.length h
    rw [String.length_append, String.length_append] at hlen
    have hone : ("-" : String).length = 1 := rfl
    omega
  · exfalso
    rw [if_neg hj, if_pos hk] at h
    have hlen := congrArg String.length h
    rw [String.length_append, String.length_append] at hlen
    have hone : ("-" : String).length = 1 := rfl
    omega
  · rw [if_neg hj, if_neg hk] at h
    have hd := congrArg String.data h
    simp only [String.data_append] at hd
    exact repr_injective (String.ext (List.append_cancel_left hd))

theorem slugMatch_iff (excl : Option String) (cand : String) (c : Course) :
    slugMatch excl cand c = true ↔
      (c.slug = cand ∧ ∀ e, excl = some e → c.id ≠ e) := by
  cases excl <;> simp [slugMatch]

theorem slugTaken_iff (courses : List Course) (excl : Option String) (cand : String) :
    slugTaken courses excl cand = true ↔
      ∃ c ∈ courses, c.slug = cand ∧ ∀ e, excl = some e → c.id ≠ e := by
  unfold slugTaken
  rw [List.find?_isSome]
  constructor
  · rintro ⟨c, hc, hm⟩
    exact ⟨c, hc, (slugMatch_iff excl cand c).mp hm⟩
  · rintro ⟨c, hc, hm⟩
    exact ⟨c, hc, (slugMatch_iff excl cand c).mpr hm⟩

theorem exists_free_cand (courses : List Course) (excl : Option String) (slug : String) :
    ∃ k, k ≤ courses.length ∧ slugTaken courses excl (slugCand slug k) = false := by
  by_contra hc
  push_neg at hc
  have htaken : ∀ k : Fin (courses.length + 1),
      slugCand slug k.val ∈ courses.map (fun c => c.slug) := by
    intro k
    have hk : k.val ≤ courses.length := by omega
    have h1 : slugTaken courses excl (slugCand slug k.val) = true := by
      have h2 := hc k.val hk
      cases h3 : slugTaken courses excl (slugCand slug k.val)
      · exact absurd h3 h2
      · rfl
    obtain ⟨c, hcmem, hcslug, -⟩ := (slugTaken_iff courses excl _).mp h1
    exact List.mem_map.mpr ⟨c, hcmem, hcslug⟩
  have hinj : Function.Injective (fun k : Fin (courses.length + 1) => slugCand slug k.val) := by
    intro a b hab
    exact Fin.ext (slugCand_injective slug hab)
  have hsub : (Finset.univ.image (fun k : Fin (courses.length + 1) => slugCand slug k.val))
      ⊆ (courses.map (fun c => c.slug)).toFinset := by
    intro x hx
    obtain ⟨k, -, rfl⟩ := Finset.mem_image.mp hx
    exact List.mem_toFinset.mpr (htaken k)
  have hcard := Finset.card_le_card hsub
  rw [Finset.card_image_of_injective _ hinj, Finset.card_univ, Fintype.card_fin] at hcard
  have hle := List.toFinset_card_le (courses.map (fun c => c.slug))
  rw [List.length_map] at hle
  omega

theorem ensureUniqueSlugGo_eq_none (courses : List Course) (slug : String)
    (excl : Option String) :
    ∀ fuel k, ensureUniqueSlugGo courses slug excl fuel k = none →
      ∀ j, k ≤ j → j < k + fuel → slugTaken courses excl (slugCand slug j) = true := by
  intro fuel
  induction fuel with
  | zero => intro k _ j h1 h2; omega
  | succ fuel ih =>
    intro k hnone j h1 h2
    rw [ensureUniqueSlugGo] at hnone
    by_cases ht : slugTaken courses excl (slugCand slug k) = true
    · rw [if_pos ht] at hnone
      by_cases hj : j = k
      · subst hj; exact ht
      · exact ih (k + 1) hnone j (by omega) (by omega)
    · rw [if_neg ht] at hnone
      exact absurd hnone (by simp)

theorem ensureUniqueSlugGo_eq_some (courses : List Course) (slug : String)
    (excl : Option String) :
    ∀ fuel k s, ensureUniqueSlugGo courses slug excl fuel k = some s →
      ∃ j, k ≤ j ∧ j < k + fuel ∧ s = slugCand slug j ∧
        slugTaken courses excl (slugCand slug j) = false ∧
        ∀ i, k ≤ i → i < j → slugTaken courses excl (slugCand slug i) = true := by
  intro fuel
  induction fuel with
  | zero => intro k s h; exact absurd h (by simp [ensureUniqueSlugGo])
  | succ fuel ih =>
    intro k s h
    rw [ensureUniqueSlugGo] at h
    by_cases ht : slugTaken courses excl (slugCand slug k) = true
    · rw [if_pos ht] at h
      obtain ⟨j, hj1, hj2, hj3, hj4, hj5⟩ := ih (k + 1) s h
      refine ⟨j, by omega, by omega, hj3, hj4, ?_⟩
      intro i hi1 hi2
      by_cases hik : i = k
      · subst hik; exact ht
      · exact hj5 i (by omega) hi2
    · rw [if_neg ht] at h
      refine ⟨k, le_refl k, by omega, (Option.some_inj.mp h).symm, ?_, ?_⟩
      · cases h2 : slugTaken courses excl (slugCand slug k)
        · rfl
        · exact absurd h2 ht
      · intro i hi1 hi2; omega

theorem ensureUniqueSlug_isSome (courses : List Course) (slug : String)
    (excl : Option String) :
    ∃ s, ensureUniqueSlug courses slug excl = some s := by
  cases h : ensureUniqueSlug courses slug excl with
  | some s => exact ⟨s, rfl⟩
  | none =>
    exfalso
    obtain ⟨k, hk, hfree⟩ := exists_free_cand courses excl slug
    have htaken := ensureUniqueSlugGo_eq_none courses slug excl (courses.length + 1) 0 h
      k (Nat.zero_le k) (by omega)
    rw [hfree] at htaken
    exact absurd htaken (by simp)

theorem ensureUniqueSlug_least (courses : List Course) (slug : String)
    (excl : Option String) (s : String) (h : ensureUniqueSlug courses slug excl = some s) :
    ∃ j, s = slugCand slug j ∧ slugTaken courses excl (slugCand slug j) = false ∧
      ∀ i, i < j → slugTaken courses excl (slugCand slug i) = true := by
  obtain ⟨j, -, -, hj3, hj4, hj5⟩ :=
    ensureUniqueSlugGo_eq_some courses slug excl (courses.length + 1) 0 s h
  exact ⟨j, hj3, hj4, fun i hi => hj5 i (Nat.zero_le i) hi⟩

theorem ensureUniqueSlug_congr (courses₁ courses₂ : List Course)
    (excl₁ excl₂ : Option String) (slug : String)
    (hpred : ∀ c, slugTaken courses₂ excl₂ c = slugTaken courses₁ excl₁ c)
    (s : String) (h1 : ensureUniqueSlug courses₁ slug excl₁ = some s) :
    ensureUniqueSlug courses₂ slug excl₂ = some s := by
  obtain ⟨s₂, h2⟩ := ensureUniqueSlug_isSome courses₂ slug excl₂
  obtain ⟨j₁, hj₁, hf₁, hm₁⟩ := ensureUniqueSlug_least courses₁ slug excl₁ s h1
  obtain ⟨j₂, hj₂, hf₂, hm₂⟩ := ensureUniqueSlug_least courses₂ slug excl₂ s₂ h2
  simp only [hpred] at hf₂ hm₂
  have hij : j₁ = j₂ := by
    rcases lt_trichotomy j₁ j₂ with hlt | heq | hgt
    · exact absurd (hm₂ j₁ hlt) (by rw [hf₁]; simp)
    · exact heq
    · exact absurd (hm₁ j₂ hgt) (by rw [hf₂]; simp)
  rw [h2, hj₂, ← hij, ← hj₁]

/-! ### Claim C9 -/

/-- C9: for every candidate slug and store of sibling rows, ensureUniqueSlug
returns a slug carried by no sibling (rows with the excluded id being
ignored), and the result is stable: once the returned slug is persisted for
the entity - either as a freshly created row, or written onto the row that
was excluded during an update - running ensureUniqueSlug again with the same
candidate and that entity id as excludeId returns the same slug. -/
theorem ensureUniqueSlug_spec (courses : List Course) (cand : String) (excl : Option String) :
    ∃ s, ensureUniqueSlug courses cand excl = some s ∧
      (∀ c ∈ courses, (∀ e, excl = some e → c.id ≠ e) → c.slug ≠ s) ∧
      (∀ (e : String) (newRow : Course),
        excl = none → (∀ c ∈ courses, c.id ≠ e) → newRow.id = e → newRow.slug = s →
        ensureUniqueSlug (courses ++ [newRow]) cand (some e) = some s) ∧
      (∀ e, excl = some e →
        ensureUniqueSlug (courses.map (fun c => if c.id = e then { c with slug := s } else c))
          cand (some e) = some s) := by
  obtain ⟨s, hs⟩ := ensureUniqueSlug_isSome courses cand excl
  obtain ⟨j, hj, hfree, -⟩ := ensureUniqueSlug_least courses cand excl s hs
  refine ⟨s, hs, ?_, ?_, ?_⟩
  · intro c hc hexcl hslug
    have htaken : slugTaken courses excl (slugCand cand j) = true :=
      (slugTaken_iff courses excl _).mpr ⟨c, hc, by rw [← hj]; exact hslug, hexcl⟩
    rw [hfree] at htaken
    exact absurd htaken (by simp)
  · intro e newRow hexcl hfresh hid hslug
    subst hexcl
    refine ensureUniqueSlug_congr courses (courses ++ [newRow]) none (some e) cand ?_ s hs
    intro c
    rw [Bool.eq_iff_iff, slugTaken_iff, slugTaken_iff]
    constructor
    · rintro ⟨x, hx, hxs, hxe⟩
      rcases List.mem_append.mp hx with hx' | hx'
      · exact ⟨x, hx', hxs, fun _ h => nomatch h⟩
      · exfalso
        rw [List.mem_singleton.mp hx'] at hxe
        exact hxe e rfl hid
    · rintro ⟨x, hx, hxs, -⟩
      exact ⟨x, List.mem_append.mpr (Or.inl hx), hxs, fun e' he' => by
        cases he'
        exact hfresh x hx⟩
  · intro e hexcl
    subst hexcl
    refine ensureUniqueSlug_congr courses
      (courses.map (fun c => if c.id = e then { c with slug := s } else c))
      (some e) (some e) cand ?_ s hs
    intro c
    rw [Bool.eq_iff_iff, slugTaken_iff, slugTaken_iff]
    constructor
    · rintro ⟨x, hx, hxs, hxe⟩
      obtain ⟨y, hy, rfl⟩ := List.mem_map.mp hx
      by_cases hye : y.id = e
      · exfalso
        rw [if_pos hye] at hxe
        exact hxe e rfl hye
      · rw [if_neg hye] at hxs hxe
        exact ⟨y, hy, hxs, hxe⟩
    · rintro ⟨x, hx, hxs, hxe⟩
      have hxe' : x.id ≠ e := hxe e rfl
      refine ⟨x, ?_, hxs, hxe⟩
      have hfx : (if x.id = e then { x with slug := s } else x) = x := if_neg hxe'
      rw [← hfx]
      exact List.mem_map.mpr ⟨x, hx, rfl⟩

/-- Witness for C9 at a concrete store: one sibling already owns the slug
intro, so the result is intro-1, and re-running after persisting intro-1 on a
fresh row with that id excluded returns intro-1 again. -/
theorem ensureUniqueSlug_spec_witness :
    ensureUniqueSlug [mkCourse "a" "intro" CourseStatus.DRAFT none none 0]
      "intro" none = some "intro-1" ∧
    ensureUniqueSlug [mkCourse "a" "intro" CourseStatus.DRAFT none none 0,
        mkCourse "b" "intro-1" CourseStatus.DRAFT none none 0]
      "intro" (some "b") = some "intro-1" := by
  obtain ⟨s, hs, -, hcreate, -⟩ := ensureUniqueSlug_spec
    [mkCourse "a" "intro" CourseStatus.DRAFT none none 0] "intro" none
  have hconc : ensureUniqueSlug [mkCourse "a" "intro" CourseStatus.DRAFT none none 0]
      "intro" none = some "intro-1" := by decide
  have hs' : s = "intro-1" := Option.some_inj.mp (hs.symm.trans hconc)
  subst hs'
  refine ⟨hconc, ?_⟩
  exact hcreate "b" (mkCourse "b" "intro-1" CourseStatus.DRAFT none none 0)
    rfl (by decide) rfl rfl

/-! ### Claim C1 -/

/-- C1: enrolling a user with no existing row in a PUBLISHED course whose
maxEnrollments is set (the DTO validation enforces a minimum of 1, hence the
positivity hypothesis): when the ACTIVE enrollment count already equals the
limit the call fails with BadRequest about the enrollment limit and, the
embedding returning a store only on success, creates no row; when the ACTIVE
count is below the limit the call appends exactly the new enrollment row and
increments enrollmentCount of the course by exactly 1. -/
theorem enrollInCourse_capacity (st : Store) (courseId userId newId : String) (now : Nat)
    (course : Course) (m : Nat)
    (hfind : st.courses.find? (fun c => decide (c.id = courseId)) = some course)
    (hpub : course.status = CourseStatus.PUBLISHED)
    (hmax : course.maxEnrollments = some m)
    (hm : 0 < m)
    (hnodup : st.enrollments.find? (fun e =>
      decide (e.userId = userId ∧ e.courseId = courseId)) = none) :
    (activeEnrollmentCount st courseId = m →
      enrollInCourse st courseId userId newId now =
        .error (.badRequest "Course enrollment limit reached")) ∧
    (activeEnrollmentCount st courseId < m →
      ∃ st' enr, enrollInCourse st courseId userId newId now = .ok (st', enr) ∧
        enr.userId = userId ∧ enr.courseId = courseId ∧
        st'.enrollments = st.enrollments ++ [enr] ∧
        st'.courses.find? (fun c => decide (c.id = courseId)) =
          some { course with enrollmentCount := course.enrollmentCount + 1 }) := by
  constructor
  · intro heq
    simp only [enrollInCourse, hfind, hnodup]
    split
    · next hstat => exact absurd hpub hstat
    · split
      · next hdup => simp at hdup
      · split
        · split
          · rfl
          · next hge =>
            rw [hmax] at hge
            simp only [Option.getD_some] at hge
            omega
        · next hne =>
          rw [hmax] at hne
          simp only [Option.getD_some] at hne
          omega
  · intro hlt
    simp only [enrollInCourse, hfind, hnodup]
    split
    · next hstat => exact absurd hpub hstat
    · split
      · next hdup => simp at hdup
      · split
        · split
          · next hge =>
            rw [hmax] at hge
            simp only [Option.getD_some] at hge
            omega
          · refine ⟨_, _, rfl, rfl, rfl, rfl, ?_⟩
            exact map_find?_by st.courses (fun c => c.id) courseId
              (fun c => { c with enrollmentCount := c.enrollmentCount + 1 })
              (fun x hx => hx) course hfind
        · next hne =>
          rw [hmax] at hne
          simp only [Option.getD_some] at hne
          omega

/-- Witness for C1 at a concrete store: a course with capacity 1 rejects a
second user once one ACTIVE row exists, and accepts the enrollment when the
ACTIVE count is 0. -/
theorem enrollInCourse_capacity_witness :
    enrollInCourse
      (Store.mk [mkCourse "c" "s" CourseStatus.PUBLISHED (some 1) (some 1) 1]
        [mkEnrollment "e1" "other" "c" EnrollmentStatus.ACTIVE 0 none])
      "c" "u" "e2" 9 = .error (.badRequest "Course enrollment limit reached") ∧
    ∃ st' enr, enrollInCourse
      (Store.mk [mkCourse "c" "s" CourseStatus.PUBLISHED (some 1) (some 1) 0] [])
      "c" "u" "e2" 9 = .ok (st', enr) ∧
      enr.userId = "u" ∧ enr.courseId = "c" ∧
      st'.enrollments = [] ++ [enr] ∧
      st'.courses.find? (fun c => decide (c.id = "c")) =
        some { mkCourse "c" "s" CourseStatus.PUBLISHED (some 1) (some 1) 0 with
                 enrollmentCount := (mkCourse "c" "s" CourseStatus.PUBLISHED
                   (some 1) (some 1) 0).enrollmentCount + 1 } := by
  constructor
  · exact (enrollInCourse_capacity
      (Store.mk [mkCourse "c" "s" CourseStatus.PUBLISHED (some 1) (some 1) 1]
        [mkEnrollment "e1" "other" "c" EnrollmentStatus.ACTIVE 0 none])
      "c" "u" "e2" 9 (mkCourse "c" "s" CourseStatus.PUBLISHED (some 1) (some 1) 1) 1
      (by decide) (by decide) (by decide) (by decide) (by decide)).1 (by decide)
  · exact (enrollInCourse_capacity
      (Store.mk [mkCourse "c" "s" CourseStatus.PUBLISHED (some 1) (some 1) 0] [])
      "c" "u" "e2" 9 (mkCourse "c" "s" CourseStatus.PUBLISHED (some 1) (some 1) 0) 1
      (by decide) (by decide) (by decide) (by decide) (by decide)).2 (by decide)

/-! ### Claim C2 -/

/-- C2 as amended: for a course that exists with status PUBLISHED, if any
enrollment row for the (userId, courseId) pair already exists - whatever its
status - enrollInCourse fails with Conflict; the embedding returns a store
only on success, mirroring that the source performs no write before this
throw.  (As frozen the claim also covered non-PUBLISHED courses, where the
code instead fails earlier with BadRequest - see the counterexample.) -/
theorem enrollInCourse_duplicate (st : Store) (courseId userId newId : String) (now : Nat)
    (course : Course) (ex : CourseEnrollment)
    (hfind : st.courses.find? (fun c => decide (c.id = courseId)) = some course)
    (hpub : course.status = CourseStatus.PUBLISHED)
    (hdup : st.enrollments.find? (fun e =>
      decide (e.userId = userId ∧ e.courseId = courseId)) = some ex) :
    enrollInCourse st courseId userId newId now =
      .error (.conflict "You are already enrolled in this course") := by
  simp only [enrollInCourse, hfind, hdup]
  split
  · next hstat => exact absurd hpub hstat
  · split
    · rfl
    · next hdup2 => simp at hdup2

/-- Counterexample to C2 as frozen: the course exists but is DRAFT, and an
enrollment row for the pair exists (status CANCELLED); the second enroll call
fails with BadRequest about availability, not with Conflict. -/
theorem enrollInCourse_duplicate_counterexample :
    (Store.mk [mkCourse "c" "s" CourseStatus.DRAFT none none 1]
        [mkEnrollment "e1" "u" "c" EnrollmentStatus.CANCELLED 0 none]).enrollments.find?
      (fun e => decide (e.userId = "u" ∧ e.courseId = "c")) =
        some (mkEnrollment "e1" "u" "c" EnrollmentStatus.CANCELLED 0 none) ∧
    enrollInCourse
      (Store.mk [mkCourse "c" "s" CourseStatus.DRAFT none none 1]
        [mkEnrollment "e1" "u" "c" EnrollmentStatus.CANCELLED 0 none])
      "c" "u" "e2" 9 = .error (.badRequest "Course is not available for enrollment") := by
  exact ⟨by decide, rfl⟩

/-- Witness for C2 at a concrete store: a PUBLISHED course with an existing
CANCELLED row for the pair produces Conflict. -/
theorem enrollInCourse_duplicate_witness :
    enrollInCourse
      (Store.mk [mkCourse "c" "s" CourseStatus.PUBLISHED none none 1]
        [mkEnrollment "e1" "u" "c" EnrollmentStatus.CANCELLED 0 none])
      "c" "u" "e2" 9 = .error (.conflict "You are already enrolled in this course") :=
  enrollInCourse_duplicate
    (Store.mk [mkCourse "c" "s" CourseStatus.PUBLISHED none none 1]
      [mkEnrollment "e1" "u" "c" EnrollmentStatus.CANCELLED 0 none])
    "c" "u" "e2" 9 (mkCourse "c" "s" CourseStatus.PUBLISHED none none 1)
    (mkEnrollment "e1" "u" "c" EnrollmentStatus.CANCELLED 0 none)
    (by decide) (by decide) (by decide)

/-! ### Claim C3 -/

/-- C3: evaluation of the code at the failing input.  The blog-service fetch
by id applies no visibility filter at all: a requester with role USER who is
not the author receives another author's DRAFT blog instead of NotFound (the
service does not even receive the requester id, so authorship cannot be
checked).  The admin conjunct of the claim does hold, as the second equation
shows; the author conjunct holds trivially because everyone receives the
blog. -/
theorem getBlogById_draft_leak :
    getBlogById [mkBlog "b1" "s" BlogStatus.DRAFT "alice" false] "b1" UserRole.USER =
      .ok ([mkBlog "b1" "s" BlogStatus.DRAFT "alice" false],
        mkBlog "b1" "s" BlogStatus.DRAFT "alice" false) ∧
    getBlogById [mkBlog "b1" "s" BlogStatus.DRAFT "alice" false] "b1" UserRole.ADMIN =
      .ok ([mkBlog "b1" "s" BlogStatus.DRAFT "alice" false],
        mkBlog "b1" "s" BlogStatus.DRAFT "alice" false) :=
  ⟨rfl, rfl⟩

/-! ### Claim C4 -/

/-- Counterexample to C4 as frozen: publishing an already-PUBLISHED course
fails with BadRequest (message about being already published), not with a
Conflict error as the claim states. -/
theorem publishCourse_already_published_counterexample :
    publishCourse [mkCourse "c" "s" CourseStatus.PUBLISHED (some 3) none 0] "c" none 9 =
      .error (.badRequest "Course is already published") ∧
    ∀ msg, publishCourse [mkCourse "c" "s" CourseStatus.PUBLISHED (some 3) none 0] "c" none 9 ≠
      .error (.conflict msg) := by
  refine ⟨rfl, ?_⟩
  intro msg hmsg
  have h1 : publishCourse [mkCourse "c" "s" CourseStatus.PUBLISHED (some 3) none 0] "c" none 9 =
      Except.error (ApiError.badRequest "Course is already published") := rfl
  rw [h1] at hmsg
  exact ApiError.noConfusion (Except.error.inj hmsg)

/-- C4 as amended: publishCourse fails with BadRequest (not Conflict) when
the course is already PUBLISHED, and otherwise sets status PUBLISHED and
publishedAt to the caller-supplied timestamp or the current time;
unpublishCourse fails with BadRequest when the course is not PUBLISHED, and
otherwise sets status DRAFT and publishedAt null. -/
theorem publish_unpublish_spec (courses : List Course) (id : String)
    (dtoPublishedAt : Option Nat) (now : Nat) (course : Course)
    (hfind : courses.find? (fun c => decide (c.id = id)) = some course) :
    (course.status = CourseStatus.PUBLISHED →
      publishCourse courses id dtoPublishedAt now =
        .error (.badRequest "Course is already published")) ∧
    (course.status ≠ CourseStatus.PUBLISHED →
      publishCourse courses id dtoPublishedAt now =
        .ok (courses.map (fun x =>
            if x.id = id then { course with status := CourseStatus.PUBLISHED, publishedAt := some (dtoPublishedAt.getD now) } else x),
          { course with status := CourseStatus.PUBLISHED, publishedAt := some (dtoPublishedAt.getD now) })) ∧
    (course.status ≠ CourseStatus.PUBLISHED →
      unpublishCourse courses id = .error (.badRequest "Course is not published")) ∧
    (course.status = CourseStatus.PUBLISHED →
      unpublishCourse courses id =
        .ok (courses.map (fun x =>
            if x.id = id then { course with status := CourseStatus.DRAFT, publishedAt := none } else x),
          { course with status := CourseStatus.DRAFT, publishedAt := none })) := by
  refine ⟨?_, ?_, ?_, ?_⟩
  · intro hpub
    simp only [publishCourse, hfind]
    rw [if_pos hpub]
  · intro hnot
    simp only [publishCourse, hfind]
    rw [if_neg hnot]
  · intro hnot
    simp only [unpublishCourse, hfind]
    rw [if_pos hnot]
  · intro hpub
    simp only [unpublishCourse, hfind]
    rw [if_neg (by simp [hpub])]

/-- Witness for C4 at concrete stores: a DRAFT course publishes with the DTO
timestamp and refuses unpublish; a PUBLISHED course refuses publish and
unpublishes to DRAFT with publishedAt cleared. -/
theorem publish_unpublish_spec_witness :
    publishCourse [mkCourse "c" "s" CourseStatus.DRAFT none none 0] "c" (some 4) 9 =
      .ok ([{ mkCourse "c" "s" CourseStatus.DRAFT none none 0 with status := CourseStatus.PUBLISHED, publishedAt := some 4 }],
        { mkCourse "c" "s" CourseStatus.DRAFT none none 0 with status := CourseStatus.PUBLISHED, publishedAt := some 4 }) ∧
    unpublishCourse [mkCourse "c" "s" CourseStatus.DRAFT none none 0] "c" =
      .error (.badRequest "Course is not published") ∧
    publishCourse [mkCourse "c" "s" CourseStatus.PUBLISHED (some 3) none 0] "c" none 9 =
      .error (.badRequest "Course is already published") ∧
    unpublishCourse [mkCourse "c" "s" CourseStatus.PUBLISHED (some 3) none 0] "c" =
      .ok ([{ mkCourse "c" "s" CourseStatus.PUBLISHED (some 3) none 0 with status := CourseStatus.DRAFT, publishedAt := none }],
        { mkCourse "c" "s" CourseStatus.PUBLISHED (some 3) none 0 with status := CourseStatus.DRAFT, publishedAt := none }) := by
  obtain ⟨-, hpub1, hunpub1, -⟩ := publish_unpublish_spec
    [mkCourse "c" "s" CourseStatus.DRAFT none none 0] "c" (some 4) 9
    (mkCourse "c" "s" CourseStatus.DRAFT none none 0) (by decide)
  obtain ⟨hpub2, -, -, hunpub2⟩ := publish_unpublish_spec
    [mkCourse "c" "s" CourseStatus.PUBLISHED (some 3) none 0] "c" none 9
    (mkCourse "c" "s" CourseStatus.PUBLISHED (some 3) none 0) (by decide)
  exact ⟨hpub1 (by decide), hunpub1 (by decide), hpub2 (by decide), hunpub2 (by decide)⟩

/-! ### Claim C5 -/

/-- Counterexample to C5 as frozen: a single createCourse call - a public
operation - whose DTO carries status PUBLISHED produces a store whose course
has status PUBLISHED and publishedAt null, so publishedAt non-null iff
PUBLISHED fails on a reachable state. -/
theorem createCourse_breaks_pubInv :
    createCourse [] (CreateCourseData.mk "Title" (some "t") (some CourseStatus.PUBLISHED) none none none) "u" "c1" =
      some ([Course.mk "c1" "t" "Title" CourseStatus.PUBLISHED none none 0 0 0 false "u"],
        Course.mk "c1" "t" "Title" CourseStatus.PUBLISHED none none 0 0 0 false "u") ∧
    ¬ pubInv (Course.mk "c1" "t" "Title" CourseStatus.PUBLISHED none none 0 0 0 false "u") := by
  constructor
  · rfl
  · intro h
    exact h.mpr rfl rfl

/-- C5 as amended: the invariant publishedAt non-null iff status PUBLISHED
holds of every course in every store reachable through the public operations,
provided the status field is never injected directly through the DTOs: every
create carries a status other than PUBLISHED (or none) and every update
carries no status, so that statuses change only via publish and unpublish
(the counterexample shows the claim fails as frozen when a create carries
status PUBLISHED). -/
theorem courseReachable_pubInv (cs : List Course) (h : CourseReachable cs) :
    ∀ c ∈ cs, pubInv c := by
  induction h with
  | init => intro c hc; simp at hc
  | create cs cs' dto uid nid c hr hdto heq ih =>
    intro x hx
    rw [createCourse] at heq
    cases hE : ensureUniqueSlug cs (createSlugBase dto) none with
    | none => rw [hE] at heq; exact absurd heq (by simp)
    | some slug =>
      rw [hE] at heq
      injection heq with hpair
      injection hpair with hcs hc
      subst hcs
      rcases List.mem_append.mp hx with hold | hnew
      · exact ih x hold
      · rw [List.mem_singleton.mp hnew]
        unfold pubInv
        refine iff_of_false (by simp) ?_
        cases hd : dto.status with
        | none => simp [hd]
        | some s =>
          simp only [hd, Option.getD_some]
          intro hs
          exact hdto (by rw [hd, hs])
  | update cs cs' id dto c hr hdto heq ih =>
    intro x hx
    rw [updateCourse] at heq
    cases hf : cs.find? (fun c => decide (c.id = id)) with
    | none => rw [hf] at heq; exact absurd heq (by simp)
    | some c₀ =>
      rw [hf] at heq
      injection heq with hpair
      injection hpair with hcs hc
      subst hcs
      obtain ⟨y, hy, rfl⟩ := List.mem_map.mp hx
      by_cases hyid : y.id = id
      · rw [if_pos hyid]
        have h₀ := ih c₀ (List.mem_of_find?_eq_some hf)
        unfold pubInv at h₀ ⊢
        simpa [hdto] using h₀
      · rw [if_neg hyid]
        exact ih y hy
  | publish cs cs' id dtoPublishedAt now c hr heq ih =>
    intro x hx
    cases hf : cs.find? (fun c => decide (c.id = id)) with
    | none =>
      simp only [publishCourse, hf] at heq
      exact absurd heq (by simp)
    | some c₀ =>
      simp only [publishCourse, hf] at heq
      split at heq
      · exact absurd heq (by simp)
      · injection heq with hpair
        injection hpair with hcs hc
        subst hcs
        obtain ⟨y, hy, rfl⟩ := List.mem_map.mp hx
        by_cases hyid : y.id = id
        · rw [if_pos hyid]
          unfold pubInv
          simp
        · rw [if_neg hyid]
          exact ih y hy
  | unpublish cs cs' id c hr heq ih =>
    intro x hx
    cases hf : cs.find? (fun c => decide (c.id = id)) with
    | none =>
      simp only [unpublishCourse, hf] at heq
      exact absurd heq (by simp)
    | some c₀ =>
      simp only [unpublishCourse, hf] at heq
      split at heq
      · exact absurd heq (by simp)
      · injection heq with hpair
        injection hpair with hcs hc
        subst hcs
        obtain ⟨y, hy, rfl⟩ := List.mem_map.mp hx
        by_cases hyid : y.id = id
        · rw [if_pos hyid]
          unfold pubInv
          simp
        · rw [if_neg hyid]
          exact ih y hy

/-- Witness for C5: a concrete two-step derivation - create without a DTO
status, then publish at time 7 - reaches a store on which the invariant is
checked through the reachability theorem. -/
theorem courseReachable_pubInv_witness :
    pubInv (Course.mk "c1" "t" "Title" CourseStatus.PUBLISHED (some 7) none 0 0 0 false "u") := by
  have h0 : CourseReachable [] := CourseReachable.init
  have h1 : CourseReachable [Course.mk "c1" "t" "Title" CourseStatus.DRAFT none none 0 0 0 false "u"] :=
    CourseReachable.create [] _ (CreateCourseData.mk "Title" (some "t") none none none none)
      "u" "c1" _ h0 (by simp) rfl
  have h2 : CourseReachable [Course.mk "c1" "t" "Title" CourseStatus.PUBLISHED (some 7) none 0 0 0 false "u"] :=
    CourseReachable.publish _ _ "c1" none 7 _ h1 rfl
  exact courseReachable_pubInv _ h2 _ (List.mem_singleton.mpr rfl)

/-! ### Claim C6 -/

/-- C6: for an enrollment owned by the caller whose completedAt is still
null, submitting progress at least 100 marks the row COMPLETED and stamps
completedAt with the current time; any later submission of progress at least
100 on the same enrollment leaves completedAt (and the COMPLETED status)
unchanged - the stamp happens exactly once. -/
theorem updateEnrollmentProgress_completion (st : Store) (eid uid : String)
    (p : Int) (now : Nat) (e : CourseEnrollment)
    (hfind : st.enrollments.find? (fun x => decide (x.id = eid)) = some e)
    (howner : e.userId = uid)
    (hfresh : e.completedAt = none)
    (hp : p ≥ 100) :
    ∃ st₁ e₁, updateEnrollmentProgress st eid uid p now = .ok (st₁, e₁) ∧
      e₁.status = EnrollmentStatus.COMPLETED ∧ e₁.completedAt = some now ∧
      ∀ (p₂ : Int) (now₂ : Nat), p₂ ≥ 100 →
        ∃ st₂ e₂, updateEnrollmentProgress st₁ eid uid p₂ now₂ = .ok (st₂, e₂) ∧
          e₂.completedAt = some now ∧ e₂.status = EnrollmentStatus.COMPLETED := by
  have hdec := @List.find?_some CourseEnrollment (fun x => decide (x.id = eid)) e
    st.enrollments hfind
  have heid : e.id = eid := of_decide_eq_true hdec
  simp only [updateEnrollmentProgress, hfind]
  rw [if_neg (by simp [howner])]
  rw [if_pos ⟨hp, hfresh⟩]
  refine ⟨_, _, rfl, rfl, rfl, ?_⟩
  intro p₂ now₂ hp₂
  have hfind₁ := map_find?_by st.enrollments (fun x => x.id) eid
    (fun _ => { e with progress := p, status := EnrollmentStatus.COMPLETED, completedAt := some now })
    (fun x _ => heid) e hfind
  simp only [updateEnrollmentProgress, hfind₁]
  rw [if_neg (by simp [howner])]
  rw [if_neg (by simp)]
  exact ⟨_, _, rfl, rfl, rfl⟩

/-- Witness for C6 at a concrete store: the first progress-100 call stamps
completedAt at time 5; resubmitting 100 at time 8 keeps completedAt at 5. -/
theorem updateEnrollmentProgress_completion_witness :
    ∃ st₁ e₁, updateEnrollmentProgress
      (Store.mk [] [mkEnrollment "e1" "u" "c" EnrollmentStatus.ACTIVE 40 none])
      "e1" "u" 100 5 = .ok (st₁, e₁) ∧
      e₁.status = EnrollmentStatus.COMPLETED ∧ e₁.completedAt = some 5 ∧
      ∀ (p₂ : Int) (now₂ : Nat), p₂ ≥ 100 →
        ∃ st₂ e₂, updateEnrollmentProgress st₁ "e1" "u" p₂ now₂ = .ok (st₂, e₂) ∧
          e₂.completedAt = some 5 ∧ e₂.status = EnrollmentStatus.COMPLETED :=
  updateEnrollmentProgress_completion
    (Store.mk [] [mkEnrollment "e1" "u" "c" EnrollmentStatus.ACTIVE 40 none])
    "e1" "u" 100 5 (mkEnrollment "e1" "u" "c" EnrollmentStatus.ACTIVE 40 none)
    (by decide) (by decide) (by decide) (by decide)

/-! ### Claim C7 -/

/-- C7: cancelEnrollment, called by the owner, sets the enrollment status to
CANCELLED and decrements enrollmentCount of the course with no check of the
current status; a second cancellation of the same (already CANCELLED)
enrollment succeeds again and decrements the counter a second time, leaving
it lower by 2. -/
theorem cancelEnrollment_double (st : Store) (eid uid : String)
    (e : CourseEnrollment) (course : Course)
    (hfind : st.enrollments.find? (fun x => decide (x.id = eid)) = some e)
    (howner : e.userId = uid)
    (hcourse : st.courses.find? (fun c => decide (c.id = e.courseId)) = some course) :
    ∃ st₁ e₁, cancelEnrollment st eid uid = .ok (st₁, e₁) ∧
      e₁.status = EnrollmentStatus.CANCELLED ∧
      st₁.courses.find? (fun c => decide (c.id = e.courseId)) =
        some { course with enrollmentCount := course.enrollmentCount - 1 } ∧
      ∃ st₂ e₂, cancelEnrollment st₁ eid uid = .ok (st₂, e₂) ∧
        e₂.status = EnrollmentStatus.CANCELLED ∧
        st₂.courses.find? (fun c => decide (c.id = e.courseId)) =
          some { course with enrollmentCount := course.enrollmentCount - 2 } := by
  have hdec := @List.find?_some CourseEnrollment (fun x => decide (x.id = eid)) e
    st.enrollments hfind
  have heid : e.id = eid := of_decide_eq_true hdec
  simp only [cancelEnrollment, hfind]
  rw [if_neg (by simp [howner])]
  refine ⟨_, _, rfl, rfl, ?_, ?_⟩
  · exact map_find?_by st.courses (fun c => c.id) e.courseId
      (fun c => { c with enrollmentCount := c.enrollmentCount - 1 })
      (fun x hx => hx) course hcourse
  · have hfind₁ := map_find?_by st.enrollments (fun x => x.id) eid
      (fun _ => { e with status := EnrollmentStatus.CANCELLED })
      (fun x _ => heid) e hfind
    simp only [cancelEnrollment, hfind₁]
    rw [if_neg (by simp [howner])]
    refine ⟨_, _, rfl, rfl, ?_⟩
    have hfind₂ := map_find?_by
      (st.courses.map (fun c =>
        if c.id = e.courseId then { c with enrollmentCount := c.enrollmentCount - 1 } else c))
      (fun c => c.id) e.courseId
      (fun c => { c with enrollmentCount := c.enrollmentCount - 1 })
      (fun x hx => hx)
      { course with enrollmentCount := course.enrollmentCount - 1 }
      (map_find?_by st.courses (fun c => c.id) e.courseId
        (fun c => { c with enrollmentCount := c.enrollmentCount - 1 })
        (fun x hx => hx) course hcourse)
    have harith : course.enrollmentCount - 1 - 1 = course.enrollmentCount - 2 := by ring
    rw [← harith]
    exact hfind₂

/-- Witness for C7 at a concrete store: cancelling twice drives the course
counter from 1 to -1. -/
theorem cancelEnrollment_double_witness :
    ∃ st₁ e₁, cancelEnrollment
      (Store.mk [mkCourse "c" "s" CourseStatus.PUBLISHED none none 1]
        [mkEnrollment "e1" "u" "c" EnrollmentStatus.ACTIVE 0 none]) "e1" "u" = .ok (st₁, e₁) ∧
      e₁.status = EnrollmentStatus.CANCELLED ∧
      st₁.courses.find? (fun c => decide (c.id = "c")) =
        some { mkCourse "c" "s" CourseStatus.PUBLISHED none none 1 with enrollmentCount := (mkCourse "c" "s" CourseStatus.PUBLISHED none none 1).enrollmentCount - 1 } ∧
      ∃ st₂ e₂, cancelEnrollment st₁ "e1" "u" = .ok (st₂, e₂) ∧
        e₂.status = EnrollmentStatus.CANCELLED ∧
        st₂.courses.find? (fun c => decide (c.id = "c")) =
          some { mkCourse "c" "s" CourseStatus.PUBLISHED none none 1 with enrollmentCount := (mkCourse "c" "s" CourseStatus.PUBLISHED none none 1).enrollmentCount - 2 } :=
  cancelEnrollment_double
    (Store.mk [mkCourse "c" "s" CourseStatus.PUBLISHED none none 1]
      [mkEnrollment "e1" "u" "c" EnrollmentStatus.ACTIVE 0 none]) "e1" "u"
    (mkEnrollment "e1" "u" "c" EnrollmentStatus.ACTIVE 0 none)
    (mkCourse "c" "s" CourseStatus.PUBLISHED none none 1)
    (by decide) (by decide) (by decide)

/-! ### Claim C8 -/

/-- C8: startLiveSession fails with BadRequest unless the status is exactly
SCHEDULED; endLiveSession fails unless exactly LIVE; cancelLiveSession fails
only when the status is COMPLETED, so a session in any other status -
including one already CANCELLED - is set to CANCELLED. -/
theorem liveSession_guards (sessions : List LiveSession) (id : String) (s : LiveSession)
    (hfind : sessions.find? (fun x => decide (x.id = id)) = some s) :
    (s.status ≠ SessionStatus.SCHEDULED →
      startLiveSession sessions id = .error (.badRequest "Session is not scheduled")) ∧
    (s.status = SessionStatus.SCHEDULED →
      startLiveSession sessions id =
        .ok (sessions.map (fun x => if x.id = id then { s with status := SessionStatus.LIVE } else x),
          { s with status := SessionStatus.LIVE })) ∧
    (s.status ≠ SessionStatus.LIVE →
      endLiveSession sessions id = .error (.badRequest "Session is not live")) ∧
    (s.status = SessionStatus.LIVE →
      endLiveSession sessions id =
        .ok (sessions.map (fun x => if x.id = id then { s with status := SessionStatus.COMPLETED } else x),
          { s with status := SessionStatus.COMPLETED })) ∧
    (s.status = SessionStatus.COMPLETED →
      cancelLiveSession sessions id = .error (.badRequest "Cannot cancel a completed session")) ∧
    (s.status ≠ SessionStatus.COMPLETED →
      cancelLiveSession sessions id =
        .ok (sessions.map (fun x => if x.id = id then { s with status := SessionStatus.CANCELLED } else x),
          { s with status := SessionStatus.CANCELLED })) := by
  refine ⟨?_, ?_, ?_, ?_, ?_, ?_⟩
  · intro h
    simp only [startLiveSession, hfind]
    rw [if_pos h]
  · intro h
    simp only [startLiveSession, hfind]
    rw [if_neg (by simp [h])]
  · intro h
    simp only [endLiveSession, hfind]
    rw [if_pos h]
  · intro h
    simp only [endLiveSession, hfind]
    rw [if_neg (by simp [h])]
  · intro h
    simp only [cancelLiveSession, hfind]
    rw [if_pos h]
  · intro h
    simp only [cancelLiveSession, hfind]
    rw [if_neg h]

/-- Witness for C8 at concrete stores: an already-CANCELLED session is
re-cancelled successfully (and cannot be started), while a COMPLETED session
refuses cancellation. -/
theorem liveSession_guards_witness :
    cancelLiveSession [LiveSession.mk "a" SessionStatus.CANCELLED] "a" =
      .ok ([LiveSession.mk "a" SessionStatus.CANCELLED],
        LiveSession.mk "a" SessionStatus.CANCELLED) ∧
    startLiveSession [LiveSession.mk "a" SessionStatus.CANCELLED] "a" =
      .error (.badRequest "Session is not scheduled") ∧
    cancelLiveSession [LiveSession.mk "b" SessionStatus.COMPLETED] "b" =
      .error (.badRequest "Cannot cancel a completed session") := by
  obtain ⟨hstart, -, -, -, -, hcancel⟩ := liveSession_guards
    [LiveSession.mk "a" SessionStatus.CANCELLED] "a"
    (LiveSession.mk "a" SessionStatus.CANCELLED) (by decide)
  obtain ⟨-, -, -, -, hcomp, -⟩ := liveSession_guards
    [LiveSession.mk "b" SessionStatus.COMPLETED] "b"
    (LiveSession.mk "b" SessionStatus.COMPLETED) (by decide)
  exact ⟨hcancel (by decide), hstart (by decide), hcomp (by decide)⟩

/-! ### Claim C10 -/

/-- C10: evaluation of the code at the failing input.  Fetching an absent
slug with a role present yields NotFound as the claim says, but the
unauthenticated caller (no role) hits the read of isForDentist on the null
row BEFORE the existence check and the call dies with a runtime TypeError
(surfaced as a 500), not NotFound. -/
theorem getBlogBySlug_absent_slug :
    getBlogBySlug [] "missing" none =
      .error (.typeError "Cannot read properties of null reading isForDentist") ∧
    getBlogBySlug [] "missing" (some UserRole.USER) = .error (.notFound "Blog not found") ∧
    getBlogBySlug [] "missing" (some UserRole.ADMIN) = .error (.notFound "Blog not found") :=
  ⟨rfl, rfl, rfl⟩

end Aligner360
